import Mathlib

/-!
Verification of the selection-tracking / scoped-registry / command-multiplexing
core of the Kakoune editor fork, as a shallow embedding in Lean.

Sources embedded:
  * src/src/dynamic_selection_list.hh (DynamicSelectionList, CompletionFlags,
    FunctionRegistry)
  * src/src/commands.cc (context_wrap, get_options, get_hook_manager,
    get_keymap_manager, declare_option, define_command, try_catch, exec_keys,
    RegisterRestorer)
  * src/src/highlighter_registry.cc (HighlighterRegistry::register_factory)

Strings are modelled as lists of characters; machine integers (LineCount,
ByteCount) as unbounded integers, which is faithful for the coordinate
arithmetic involved here.
-/

namespace Kakoune

/-- Strings of the C++ source are modelled as lists of characters. -/
abbrev Str := List Char

/-- BufferCoord: a (line, byte-offset-within-line) position, compared
lexicographically line-major.  LineCount and ByteCount are integer types. -/
structure BufferCoord where
  line : Int
  column : Int
deriving DecidableEq, Repr

namespace BufferCoord

instance : LE BufferCoord :=
  ⟨fun a b => a.line < b.line ∨ (a.line = b.line ∧ a.column ≤ b.column)⟩

instance : LT BufferCoord :=
  ⟨fun a b => a.line < b.line ∨ (a.line = b.line ∧ a.column < b.column)⟩

theorem le_def (a b : BufferCoord) :
    a ≤ b ↔ (a.line < b.line ∨ (a.line = b.line ∧ a.column ≤ b.column)) := Iff.rfl

theorem lt_def (a b : BufferCoord) :
    a < b ↔ (a.line < b.line ∨ (a.line = b.line ∧ a.column < b.column)) := Iff.rfl

instance : LinearOrder BufferCoord where
  le_refl a := Or.inr ⟨rfl, le_refl _⟩
  le_trans a b c hab hbc := by
    rw [le_def] at *
    rcases hab with h | ⟨h1, h2⟩ <;> rcases hbc with h' | ⟨h1', h2'⟩ <;> omega
  le_antisymm a b h1 h2 := by
    rw [le_def] at h1 h2
    cases a; cases b
    simp only [BufferCoord.mk.injEq]
    simp only at h1 h2
    omega
  le_total a b := by
    rw [le_def, le_def]
    omega
  lt_iff_le_not_le a b := by
    rw [lt_def, le_def, le_def]
    omega
  decidableLE a b :=
    inferInstanceAs (Decidable (a.line < b.line ∨ (a.line = b.line ∧ a.column ≤ b.column)))
  decidableLT a b :=
    inferInstanceAs (Decidable (a.line < b.line ∨ (a.line = b.line ∧ a.column < b.column)))
  decidableEq := inferInstance

end BufferCoord

/-- A Selection is an ordered pair of coordinates: the anchor (`first`) and the
cursor (`last`). -/
structure Selection where
  first : BufferCoord
  last : BufferCoord
deriving DecidableEq, Repr

namespace Selection

/-- The lower bound of the range covered by the selection. -/
def smin (s : Selection) : BufferCoord := min s.first s.last

/-- The upper bound of the range covered by the selection. -/
def smax (s : Selection) : BufferCoord := max s.first s.last

theorem smin_le_smax (s : Selection) : s.smin ≤ s.smax := min_le_max

end Selection

/-- Modelled from the spec: `on_insert(doc, begin, end)` shifts every selection
coordinate strictly after `begin` forward by the inserted span's extent, and a
coordinate exactly at `begin` is also shifted.  (The member-function body is
declared in src/src/dynamic_selection_list.hh but its definition is not part of
the sources.)  The extent of the span `[b, e)` adds `e.line - b.line` lines,
and adjusts the column only for coordinates on the insertion line. -/
def update_insert (c b e : BufferCoord) : BufferCoord :=
  if c < b then c
  else { line := c.line + (e.line - b.line),
         column := if c.line = b.line then c.column + (e.column - b.column)
                   else c.column }

/-- Modelled from the spec: `on_erase(doc, begin, end)` collapses any coordinate
inside `[begin, end)` to `begin`, shifts any coordinate at or after `end`
backward by the erased span's extent, and leaves coordinates before `begin`
unaffected.  (Definition not part of the sources, see `update_insert`.) -/
def update_erase (c b e : BufferCoord) : BufferCoord :=
  if c < b then c
  else if c < e then b
  else { line := c.line - (e.line - b.line),
         column := if c.line = e.line then b.column + (c.column - e.column)
                   else c.column }

/-- Apply the insert-event coordinate update to both endpoints of a selection. -/
def Selection.apply_insert (s : Selection) (b e : BufferCoord) : Selection :=
  ⟨update_insert s.first b e, update_insert s.last b e⟩

/-- Apply the erase-event coordinate update to both endpoints of a selection. -/
def Selection.apply_erase (s : Selection) (b e : BufferCoord) : Selection :=
  ⟨update_erase s.first b e, update_erase s.last b e⟩

/-- Ordering of selections by their lower bound, used when re-sorting a
selection list after a mutation event. -/
def byMin (a b : Selection) : Prop := a.smin ≤ b.smin

instance : DecidableRel byMin := fun a b =>
  inferInstanceAs (Decidable (a.smin ≤ b.smin))

instance : IsTotal Selection byMin := ⟨fun a b => le_total a.smin b.smin⟩

instance : IsTrans Selection byMin := ⟨fun _ _ _ h h' => le_trans h h'⟩

/-- Merging two selections (the second not before the first) into one spanning
both, preserving the earlier one's lower end. -/
def merge_sel (a b : Selection) : Selection := ⟨a.smin, max a.smax b.smax⟩

/-- Modelled from the spec: after a mutation handler runs, the tracker
re-merges overlapping/touching selections of the sorted list. -/
def merge_overlapping : List Selection → List Selection
  | [] => []
  | a :: rest => mergeFrom a rest
where
  /-- Walk the sorted list, absorbing into the accumulator every following
  selection that overlaps or touches it. -/
  mergeFrom : Selection → List Selection → List Selection
  | a, [] => [a]
  | a, b :: rest =>
      if b.smin ≤ a.smax then mergeFrom (merge_sel a b) rest
      else a :: mergeFrom b rest

/-- Modelled from the spec: the tracker re-sorts and re-merges
overlapping/touching selections after either mutation handler runs. -/
def update_validate (l : List Selection) : List Selection :=
  merge_overlapping (l.insertionSort byMin)

/-- A mutation event delivered by the text store to the Selection Tracker. -/
inductive MutationEvent where
  | ins (b e : BufferCoord)
  | era (b e : BufferCoord)
deriving DecidableEq, Repr

/-- Modelled from the spec: the tracker's `on_insert` handler rewrites every
selection in place and then re-validates the list. -/
def on_insert (l : List Selection) (b e : BufferCoord) : List Selection :=
  update_validate (l.map (fun s => s.apply_insert b e))

/-- Modelled from the spec: the tracker's `on_erase` handler rewrites every
selection in place and then re-validates the list. -/
def on_erase (l : List Selection) (b e : BufferCoord) : List Selection :=
  update_validate (l.map (fun s => s.apply_erase b e))

/-- One step of the Selection Tracker's event subscription. -/
def apply_event (l : List Selection) : MutationEvent → List Selection
  | .ins b e => on_insert l b e
  | .era b e => on_erase l b e

/-- Process a sequence of mutation events in document order. -/
def apply_events (l : List Selection) (evs : List MutationEvent) : List Selection :=
  evs.foldl apply_event l

/-- The selection-list invariant checked by `check_invariant`: the list is
non-empty, sorted by position, and its selections are pairwise disjoint (each
ends strictly before any later one begins). -/
def selection_list_invariant (l : List Selection) : Prop :=
  l ≠ [] ∧ l.Sorted byMin ∧ l.Pairwise (fun a b => a.smax < b.smin)

instance : DecidablePred selection_list_invariant := fun _l =>
  inferInstanceAs (Decidable (_ ∧ _ ∧ _))

/-- The head of the merged list keeps the lower bound of the accumulator. -/
theorem mergeFrom_head_smin (a : Selection) (l : List Selection) :
    ∃ y ys, merge_overlapping.mergeFrom a l = y :: ys ∧ y.smin = a.smin := by
  induction l generalizing a with
  | nil => exact ⟨a, [], rfl, rfl⟩
  | cons b rest ih =>
    by_cases h : b.smin ≤ a.smax
    · obtain ⟨y, ys, hy, hmin⟩ := ih (merge_sel a b)
      refine ⟨y, ys, ?_, ?_⟩
      · simp [merge_overlapping.mergeFrom, h, hy]
      · rw [hmin]
        show min a.smin (max a.smax b.smax) = a.smin
        exact min_eq_left (le_trans a.smin_le_smax (le_max_left _ _))
    · exact ⟨a, merge_overlapping.mergeFrom b rest, by
        simp [merge_overlapping.mergeFrom, h], rfl⟩

/-- The lower bound of a merged pair. -/
theorem merge_sel_smin (a b : Selection) : (merge_sel a b).smin = a.smin := by
  show min a.smin (max a.smax b.smax) = a.smin
  exact min_eq_left (le_trans a.smin_le_smax (le_max_left _ _))

/-- The upper bound of a merged pair. -/
theorem merge_sel_smax (a b : Selection) : (merge_sel a b).smax = max a.smax b.smax := by
  show max a.smin (max a.smax b.smax) = max a.smax b.smax
  exact max_eq_right (le_trans a.smin_le_smax (le_max_left _ _))

/-- Merging a sorted list yields a chain of strictly separated selections. -/
theorem mergeFrom_chain (a : Selection) (l : List Selection)
    (h : ∀ x ∈ l, a.smin ≤ x.smin) (hs : l.Sorted byMin) :
    (merge_overlapping.mergeFrom a l).Chain' (fun x y => x.smax < y.smin) := by
  induction l generalizing a with
  | nil => simp [merge_overlapping.mergeFrom]
  | cons b rest ih =>
    rw [List.sorted_cons] at hs
    by_cases hb : b.smin ≤ a.smax
    · rw [show merge_overlapping.mergeFrom a (b :: rest)
            = merge_overlapping.mergeFrom (merge_sel a b) rest by
        simp [merge_overlapping.mergeFrom, hb]]
      refine ih (merge_sel a b) ?_ hs.2
      intro x hx
      rw [merge_sel_smin]
      exact le_trans (h b (by simp)) (hs.1 x hx)
    · rw [show merge_overlapping.mergeFrom a (b :: rest)
            = a :: merge_overlapping.mergeFrom b rest by
        simp [merge_overlapping.mergeFrom, hb]]
      obtain ⟨y, ys, hy, hymin⟩ := mergeFrom_head_smin b rest
      rw [hy]
      rw [List.chain'_cons]
      constructor
      · rw [hymin]; exact lt_of_not_le hb
      · rw [← hy]
        exact ih b hs.1 hs.2

/-- `merge_overlapping` of a sorted list is a chain of strictly separated
selections. -/
theorem merge_overlapping_chain (l : List Selection) (hs : l.Sorted byMin) :
    (merge_overlapping l).Chain' (fun x y => x.smax < y.smin) := by
  cases l with
  | nil => simp [merge_overlapping]
  | cons a rest =>
    rw [List.sorted_cons] at hs
    exact mergeFrom_chain a rest hs.1 hs.2

/-- `merge_overlapping` of a non-empty list is non-empty. -/
theorem merge_overlapping_ne_nil (l : List Selection) (h : l ≠ []) :
    merge_overlapping l ≠ [] := by
  cases l with
  | nil => exact absurd rfl h
  | cons a rest =>
    obtain ⟨y, ys, hy, _⟩ := mergeFrom_head_smin a rest
    show merge_overlapping.mergeFrom a rest ≠ []
    simp [hy]

/-- Strict separation of selections is transitive. -/
instance : IsTrans Selection (fun x y => x.smax < y.smin) :=
  ⟨fun _ b _ hab hbc => lt_trans (lt_of_lt_of_le hab b.smin_le_smax) hbc⟩

/-- `update_validate` establishes the selection-list invariant on any
non-empty input. -/
theorem update_validate_invariant (l : List Selection) (h : l ≠ []) :
    selection_list_invariant (update_validate l) := by
  have hsorted : (l.insertionSort byMin).Sorted byMin :=
    List.sorted_insertionSort byMin l
  have hne : l.insertionSort byMin ≠ [] := by
    intro hnil
    have hlen := (List.perm_insertionSort byMin l).length_eq
    rw [hnil] at hlen
    exact h (List.length_eq_zero.mp hlen.symm)
  have hchain := merge_overlapping_chain _ hsorted
  have hpw : (update_validate l).Pairwise (fun x y => x.smax < y.smin) :=
    List.chain'_iff_pairwise.mp hchain
  refine ⟨merge_overlapping_ne_nil _ hne, ?_, hpw⟩
  exact hpw.imp (fun {a b} hab =>
    le_of_lt (lt_of_le_of_lt a.smin_le_smax hab))

/-- Each mutation event preserves non-emptiness and re-establishes the
invariant. -/
theorem apply_event_invariant (l : List Selection) (ev : MutationEvent)
    (h : l ≠ []) : selection_list_invariant (apply_event l ev) := by
  cases ev with
  | ins b e =>
    exact update_validate_invariant _ (by simpa using h)
  | era b e =>
    exact update_validate_invariant _ (by simpa using h)

/-- C1: for every sequence of insert and erase mutation events applied to a
Selection Tracker whose list initially satisfies the invariant, after each
event is processed the tracker's selection list is sorted by position,
non-overlapping, and non-empty. -/
theorem tracker_invariant_preserved (l : List Selection) (evs : List MutationEvent)
    (h : selection_list_invariant l) :
    selection_list_invariant (apply_events l evs) := by
  induction evs generalizing l with
  | nil => exact h
  | cons ev rest ih =>
    exact ih (apply_event l ev) (apply_event_invariant l ev h.1)

/-- Witness for C1 at a concrete tracker state and event sequence: two
selections on line 1, an insertion that pushes them together and an erase that
collapses part of the line. -/
theorem tracker_invariant_preserved_witness :
    selection_list_invariant [⟨⟨1, 0⟩, ⟨1, 2⟩⟩, ⟨⟨1, 5⟩, ⟨1, 8⟩⟩] ∧
    selection_list_invariant (apply_events [⟨⟨1, 0⟩, ⟨1, 2⟩⟩, ⟨⟨1, 5⟩, ⟨1, 8⟩⟩]
      [.ins ⟨1, 3⟩ ⟨1, 6⟩, .era ⟨1, 1⟩ ⟨1, 9⟩]) :=
  ⟨by decide,
   tracker_invariant_preserved [⟨⟨1, 0⟩, ⟨1, 2⟩⟩, ⟨⟨1, 5⟩, ⟨1, 8⟩⟩]
     [.ins ⟨1, 3⟩ ⟨1, 6⟩, .era ⟨1, 1⟩ ⟨1, 9⟩] (by decide)⟩

/-- The offset of a coordinate `c` relative to a base coordinate `b` at or
before it: the line delta, and — meaningful only when `c` sits on the base's
line — the column delta (a column on a later line is independent of the
base's column). -/
def cdiff (c b : BufferCoord) : BufferCoord :=
  { line := c.line - b.line,
    column := if c.line = b.line then c.column - b.column else c.column }

/-- Re-attach an offset at a new base coordinate: content that sat at a given
offset from the old base sits at the same offset from the new one. -/
def cadd (b off : BufferCoord) : BufferCoord :=
  { line := b.line + off.line,
    column := if off.line = 0 then b.column + off.column else off.column }

/-- C3: on an insert mutation event, every selection coordinate at or after the
insertion begin is shifted forward by exactly the inserted span's extent: its
offset from the span's end afterwards equals its offset from the insertion
begin before, so it is never moved backward, a coordinate exactly at the
insertion begin lands at the span's end, and in particular the empty selection
[(1,0),(1,0)] becomes [(1,3),(1,3)] after inserting 3 bytes at (1,0). -/
theorem on_insert_shifts_at_or_after_begin (b e c : BufferCoord)
    (hbc : b ≤ c) :
    update_insert c b e = cadd e (cdiff c b) ∧
    (b ≤ e → c ≤ update_insert c b e) ∧
    update_insert b b e = e ∧
    on_insert [⟨⟨1, 0⟩, ⟨1, 0⟩⟩] ⟨1, 0⟩ ⟨1, 3⟩ = [⟨⟨1, 3⟩, ⟨1, 3⟩⟩] := by
  refine ⟨?_, ?_, ?_, by decide⟩
  · rw [update_insert, if_neg (not_lt.mpr hbc)]
    rw [BufferCoord.le_def] at hbc
    simp only [cdiff, cadd, BufferCoord.mk.injEq]
    split_ifs <;> constructor <;> omega
  · intro hbe
    rw [update_insert, if_neg (not_lt.mpr hbc)]
    rw [BufferCoord.le_def] at hbe hbc
    rw [BufferCoord.le_def]
    by_cases hl : c.line = b.line
    · rw [if_pos hl]
      simp only
      omega
    · rw [if_neg hl]
      simp only
      omega
  · rw [update_insert, if_neg (lt_irrefl b), if_pos rfl]
    cases e
    simp only [BufferCoord.mk.injEq]
    omega

/-- Witness for C3 at begin (1,0), end (1,3), coordinate (2,5). -/
theorem on_insert_shifts_at_or_after_begin_witness :
    update_insert ⟨2, 5⟩ ⟨1, 0⟩ ⟨1, 3⟩ = cadd ⟨1, 3⟩ (cdiff ⟨2, 5⟩ ⟨1, 0⟩) ∧
    ((⟨1, 0⟩ : BufferCoord) ≤ ⟨1, 3⟩ → (⟨2, 5⟩ : BufferCoord)
      ≤ update_insert ⟨2, 5⟩ ⟨1, 0⟩ ⟨1, 3⟩) ∧
    update_insert ⟨1, 0⟩ ⟨1, 0⟩ ⟨1, 3⟩ = ⟨1, 3⟩ ∧
    on_insert [⟨⟨1, 0⟩, ⟨1, 0⟩⟩] ⟨1, 0⟩ ⟨1, 3⟩ = [⟨⟨1, 3⟩, ⟨1, 3⟩⟩] :=
  on_insert_shifts_at_or_after_begin ⟨1, 0⟩ ⟨1, 3⟩ ⟨2, 5⟩ (by decide)

/-! ### Scoped registries and scope-keyword resolution (commands.cc) -/

/-- The error kinds raised by the command layer.  In the C++ source every one
of them is a `runtime_error` (or a subclass such as `wrong_argument_count`),
i.e. a recoverable failure; `runtimeError` carries the message of a plain
`throw runtime_error(...)`. -/
inductive CmdError where
  | unknownScope (scope : Str)
  | notFound (name : Str)
  | clientNotFound (name : Str)
  | duplicateName (name : Str)
  | wrongArgumentCount
  | runtimeError (msg : Str)
deriving DecidableEq, Repr

/-- The scope keyword "global". -/
def kwGlobal : Str := ['g', 'l', 'o', 'b', 'a', 'l']

/-- The scope keyword "buffer". -/
def kwBuffer : Str := ['b', 'u', 'f', 'f', 'e', 'r']

/-- The scope keyword "window". -/
def kwWindow : Str := ['w', 'i', 'n', 'd', 'o', 'w']

/-- The named-buffer scope keyword "buffer=" (7 characters). -/
def kwBufferEq : Str := ['b', 'u', 'f', 'f', 'e', 'r', '=']

/-- `prefix_match(str, prefix)` of the C++ source: whether `str` starts with
the given second argument. -/
def prefix_match (str pre : Str) : Bool := List.isPrefixOf pre str

/-- Identity of an option-manager instance: the global singleton, a specific
buffer's options, or the current window's options. -/
inductive OptionsRef where
  | globalOpts
  | bufOpts (name : Str)
  | winOpts
deriving DecidableEq, Repr

/-- Identity of a hook-manager instance. -/
inductive HooksRef where
  | globalHooks
  | bufHooks (name : Str)
  | winHooks
deriving DecidableEq, Repr

/-- Identity of a keymap-manager instance. -/
inductive KeymapRef where
  | globalKeymaps
  | bufKeymaps (name : Str)
  | winKeymaps
deriving DecidableEq, Repr

/-- What scope resolution needs from an execution context: the name of the
current buffer. -/
structure ScopeContext where
  currentBuffer : Str
deriving DecidableEq, Repr

/-- `get_options` of commands.cc: resolves a scope keyword to an option
manager; the `buffer=<name>` form goes through
`BufferManager::instance().get_buffer(scope.substr(7))`, which throws when no
buffer has that name (`buffers` lists the existing buffer names). -/
def get_options (scope : Str) (buffers : List Str) (context : ScopeContext) :
    Except CmdError OptionsRef :=
  if prefix_match kwGlobal scope then .ok .globalOpts
  else if prefix_match kwBuffer scope then .ok (.bufOpts context.currentBuffer)
  else if prefix_match kwWindow scope then .ok .winOpts
  else if prefix_match scope kwBufferEq then
    let name := scope.drop 7
    if name ∈ buffers then .ok (.bufOpts name)
    else .error (.notFound name)
  else .error (.unknownScope scope)

/-- `get_hook_manager` of commands.cc: only the three plain keywords are
recognized; there is no `buffer=<name>` branch. -/
def get_hook_manager (scope : Str) (context : ScopeContext) :
    Except CmdError HooksRef :=
  if prefix_match kwGlobal scope then .ok .globalHooks
  else if prefix_match kwBuffer scope then .ok (.bufHooks context.currentBuffer)
  else if prefix_match kwWindow scope then .ok .winHooks
  else .error (.unknownScope scope)

/-- `get_keymap_manager` of commands.cc: only the three plain keywords are
recognized; there is no `buffer=<name>` branch. -/
def get_keymap_manager (scope : Str) (context : ScopeContext) :
    Except CmdError KeymapRef :=
  if prefix_match kwGlobal scope then .ok .globalKeymaps
  else if prefix_match kwBuffer scope then .ok (.bufKeymaps context.currentBuffer)
  else if prefix_match kwWindow scope then .ok .winKeymaps
  else .error (.unknownScope scope)

/-- C4 counterexample: with current buffer "foo", resolving the hook scope
keyword "buffer=bar" does not yield buffer bar's hook registry — it fails with
an unknown-scope error, because `get_hook_manager` has no `buffer=` branch. -/
theorem hook_scope_buffer_eq_counterexample :
    get_hook_manager (kwBufferEq ++ ['b', 'a', 'r']) ⟨['f', 'o', 'o']⟩
      = .error (.unknownScope (kwBufferEq ++ ['b', 'a', 'r'])) ∧
    get_hook_manager (kwBufferEq ++ ['b', 'a', 'r']) ⟨['f', 'o', 'o']⟩
      ≠ .ok (.bufHooks ['b', 'a', 'r']) := by
  exact ⟨rfl, fun h => nomatch h⟩

/-- C4 amended: only the options resolver supports the `buffer=<name>` scope
form.  For every existing buffer name, `get_options "buffer=<name>"` yields
that buffer's option registry regardless of the current buffer, while
`get_hook_manager` and `get_keymap_manager` reject the same keyword with an
unknown-scope error. -/
theorem buffer_eq_scope_amended (name : Str) (buffers : List Str)
    (context : ScopeContext) (h : name ∈ buffers) :
    get_options (kwBufferEq ++ name) buffers context = .ok (.bufOpts name) ∧
    get_hook_manager (kwBufferEq ++ name) context
      = .error (.unknownScope (kwBufferEq ++ name)) ∧
    get_keymap_manager (kwBufferEq ++ name) context
      = .error (.unknownScope (kwBufferEq ++ name)) := by
  have h1 : prefix_match kwGlobal (kwBufferEq ++ name) = false := rfl
  have h2 : prefix_match kwBuffer (kwBufferEq ++ name) = false := rfl
  have h3 : prefix_match kwWindow (kwBufferEq ++ name) = false := rfl
  have h4 : prefix_match (kwBufferEq ++ name) kwBufferEq = true := by
    show List.isPrefixOf kwBufferEq (kwBufferEq ++ name) = true
    rw [List.isPrefixOf_iff_prefix]
    exact ⟨name, rfl⟩
  have h5 : (kwBufferEq ++ name).drop 7 = name := rfl
  refine ⟨?_, ?_, ?_⟩
  · simp [get_options, h1, h2, h3, h4, h5, h]
  · simp [get_hook_manager, h1, h2, h3]
  · simp [get_keymap_manager, h1, h2, h3]

/-- Witness for C4's amended statement with buffers ["bar"], current buffer
"foo", and scope keyword "buffer=bar". -/
theorem buffer_eq_scope_amended_witness :
    get_options (kwBufferEq ++ ['b', 'a', 'r']) [['b', 'a', 'r']] ⟨['f', 'o', 'o']⟩
      = .ok (.bufOpts ['b', 'a', 'r']) ∧
    get_hook_manager (kwBufferEq ++ ['b', 'a', 'r']) ⟨['f', 'o', 'o']⟩
      = .error (.unknownScope (kwBufferEq ++ ['b', 'a', 'r'])) ∧
    get_keymap_manager (kwBufferEq ++ ['b', 'a', 'r']) ⟨['f', 'o', 'o']⟩
      = .error (.unknownScope (kwBufferEq ++ ['b', 'a', 'r'])) :=
  buffer_eq_scope_amended ['b', 'a', 'r'] [['b', 'a', 'r']] ⟨['f', 'o', 'o']⟩
    (by decide)

/-! ### FunctionRegistry / HighlighterRegistry registration -/

/-- A registry's backing store (`id_map`).  Modelled from the spec: a keyed
container of (name, value) pairs with stable insertion order. -/
abbrev IdMap (α : Type) := List (Str × α)

/-- Outcome of a registration: success with the new store, a thrown recoverable
error, or a `kak_assert`/`assert` violation, which is fatal in debug builds and
performs no registration. -/
inductive RegResult (α : Type) where
  | ok (r : IdMap α)
  | err (e : CmdError)
  | assertViolation
deriving DecidableEq, Repr

namespace FunctionRegistry

/-- `id_map::contains`. -/
def contains (r : IdMap α) (name : Str) : Bool :=
  r.any (fun p => p.1 == name)

/-- `FunctionRegistry::register_func`: `kak_assert(not contains(name))`, then
append. -/
def register_func (r : IdMap α) (name : Str) (f : α) : RegResult α :=
  if contains r name then .assertViolation
  else .ok (r ++ [(name, f)])

/-- `id_map::find`: the first entry with the given name, in insertion order. -/
def find : IdMap α → Str → Option α
  | [], _ => none
  | (n, v) :: rest, name => if n == name then some v else find rest name

/-- `FunctionRegistry::operator[]`: exact-name lookup, throwing
`function_not_found` when the name is absent. -/
def getFunc (r : IdMap α) (name : Str) : Except CmdError α :=
  match find r name with
  | some v => .ok v
  | none => .error (.notFound name)

end FunctionRegistry

namespace HighlighterRegistry

/-- `HighlighterRegistry::register_factory`: `assert(not contains(name))`, then
append — the same pattern as `FunctionRegistry::register_func`. -/
def register_factory (r : IdMap α) (name : Str) (f : α) : RegResult α :=
  if FunctionRegistry.contains r name then .assertViolation
  else .ok (r ++ [(name, f)])

end HighlighterRegistry

/-- A name not contained in the left part of an appended store is found in the
right part. -/
theorem find_append_of_not_contains (r l : IdMap α) (name : Str)
    (h : FunctionRegistry.contains r name = false) :
    FunctionRegistry.find (r ++ l) name = FunctionRegistry.find l name := by
  induction r with
  | nil => rfl
  | cons p rest ih =>
    obtain ⟨n, v⟩ := p
    simp only [FunctionRegistry.contains, List.any_cons, Bool.or_eq_false_iff] at h
    rw [List.cons_append]
    rw [show FunctionRegistry.find ((n, v) :: (rest ++ l)) name
          = if n == name then some v else FunctionRegistry.find (rest ++ l) name
        from rfl]
    rw [if_neg (by simp [h.1])]
    exact ih h.2

/-- C5 counterexample: registering "foo" a second time does not fail with a
recoverable DuplicateName error — it trips the registry's assertion, which is
fatal in debug builds. -/
theorem register_duplicate_counterexample :
    FunctionRegistry.register_func [(['f', 'o', 'o'], 1)] ['f', 'o', 'o'] 2
      = RegResult.assertViolation ∧
    FunctionRegistry.register_func [(['f', 'o', 'o'], 1)] ['f', 'o', 'o'] 2
      ≠ RegResult.err (.duplicateName ['f', 'o', 'o']) := by
  constructor
  · rfl
  · intro h
    exact nomatch h

/-- C5 amended: registering an entry under a name that already exists trips the
registry's debug assertion (a fatal ValidationFailure-class check, not a
recoverable error, in both FunctionRegistry and HighlighterRegistry); the
failed registration does not modify the store, so the first entry registered
under that name is still returned by exact-name lookup. -/
theorem register_duplicate_assert_amended {α : Type} (r : IdMap α) (name : Str)
    (v w : α) (h : FunctionRegistry.contains r name = false) :
    FunctionRegistry.register_func r name v = .ok (r ++ [(name, v)]) ∧
    FunctionRegistry.register_func (r ++ [(name, v)]) name w
      = RegResult.assertViolation ∧
    HighlighterRegistry.register_factory (r ++ [(name, v)]) name w
      = RegResult.assertViolation ∧
    FunctionRegistry.getFunc (r ++ [(name, v)]) name = .ok v := by
  have hc : FunctionRegistry.contains (r ++ [(name, v)]) name = true := by
    simp [FunctionRegistry.contains, List.any_append]
  refine ⟨?_, ?_, ?_, ?_⟩
  · simp [FunctionRegistry.register_func, h]
  · simp [FunctionRegistry.register_func, hc]
  · simp [HighlighterRegistry.register_factory, hc]
  · rw [FunctionRegistry.getFunc, find_append_of_not_contains r _ name h]
    simp [FunctionRegistry.find]

/-- Witness for C5's amended statement: an empty registry, the name "foo", and
two payloads. -/
theorem register_duplicate_assert_amended_witness :
    FunctionRegistry.register_func ([] : IdMap Nat) ['f', 'o', 'o'] 1
      = .ok [(['f', 'o', 'o'], 1)] ∧
    FunctionRegistry.register_func ([] ++ [(['f', 'o', 'o'], 1)]) ['f', 'o', 'o'] 2
      = RegResult.assertViolation ∧
    HighlighterRegistry.register_factory ([] ++ [(['f', 'o', 'o'], 1)]) ['f', 'o', 'o'] 2
      = RegResult.assertViolation ∧
    FunctionRegistry.getFunc ([] ++ [(['f', 'o', 'o'], 1)]) ['f', 'o', 'o'] = .ok 1 :=
  register_duplicate_assert_amended [] ['f', 'o', 'o'] 1 2 (by decide)

/-! ### The command multiplexer: context_wrap (commands.cc) -/

/-- An execution context as seen by the command multiplexer: its selection
list, its name, whether an edit is in progress, and whether undo recording is
enabled. -/
structure Context where
  selections : List Selection
  name : Str
  isEditing : Bool
  undoEnabled : Bool
deriving DecidableEq, Repr

/-- The flags parsed by `context_wrap`'s ParametersParser. -/
structure WrapFlags where
  client : Option Str
  tryClient : Option Str
  draft : Bool
  itersel : Bool
deriving DecidableEq, Repr

/-- Observable outcome of one `context_wrap` run: the error (if one was
thrown), the target context afterwards, and the contexts passed to the command
closure, in invocation order. -/
structure WrapResult where
  err : Option CmdError
  real : Context
  calls : List Context
deriving DecidableEq, Repr

/-- `ClientManager::get_client_ifp` by client name. -/
def lookup_client : List (Str × Context) → Str → Option Context
  | [], _ => none
  | (n, c) :: rest, name => if n == name then some c else lookup_client rest name

/-- The message of the `-itersel` without `-draft` throw in `context_wrap`. -/
def iterselMsg : Str := ("-itersel makes no sense without -draft").toList

/-- The itersel loop of `context_wrap`: for each selection of the snapshot, set
the draft context's selection list to the single-selection list built from it,
then invoke the closure; returns the final draft context and the list of
contexts the closure received.  The command closure is modelled as a total
function on contexts (buffer mutations are outside this model, so the dynamic
snapshot stays fixed). -/
def run_itersel (f : Context → Context) :
    List Selection → Context → Context × List Context
  | [], d => (d, [])
  | sel :: rest, d =>
      let d1 := { d with selections := [sel] }
      let res := run_itersel f rest (f d1)
      (res.1, d1 :: res.2)

/-- The body of `context_wrap` after target-context resolution: draft-context
construction (an `InputHandler` cloned from the target's buffer, selections and
name, with undo recording disabled when the target is mid-edit), the itersel
loop, and the itersel-without-draft check. -/
def context_wrap_body (flags : WrapFlags) (rc : Context) (f : Context → Context) :
    WrapResult :=
  if flags.draft then
    let draft0 : Context :=
      { selections := rc.selections, name := rc.name, isEditing := false,
        undoEnabled := !rc.isEditing }
    if flags.itersel then
      let res := run_itersel f rc.selections draft0
      { err := none, real := rc, calls := res.2 }
    else
      let _ := f draft0
      { err := none, real := rc, calls := [draft0] }
  else
    if flags.itersel then
      { err := some (.runtimeError iterselMsg), real := rc, calls := [] }
    else
      { err := none, real := f rc, calls := [rc] }

/-- `context_wrap` of commands.cc: resolve the target context (an explicit
`-client` fails when absent, `-try-client` silently falls back to the invoking
context), then run the body. -/
def context_wrap (flags : WrapFlags) (clients : List (Str × Context))
    (context : Context) (f : Context → Context) : WrapResult :=
  match flags.client with
  | some cname =>
      match lookup_client clients cname with
      | none => { err := some (.clientNotFound cname), real := context, calls := [] }
      | some rc => context_wrap_body flags rc f
  | none =>
      match flags.tryClient with
      | some cname =>
          match lookup_client clients cname with
          | some rc => context_wrap_body flags rc f
          | none => context_wrap_body flags context f
      | none => context_wrap_body flags context f

/-- The contexts fed to the closure by the itersel loop carry exactly the
single-selection lists built from the snapshot, in snapshot order. -/
theorem run_itersel_calls (f : Context → Context) (sels : List Selection)
    (d : Context) :
    (run_itersel f sels d).2.map Context.selections = sels.map (fun s => [s]) := by
  induction sels generalizing d with
  | nil => rfl
  | cons sel rest ih =>
    simp only [run_itersel, List.map_cons]
    rw [ih]

/-- C2: with both `-draft` and `-itersel`, `context_wrap` invokes the closure
exactly once per selection of the target's snapshot, in snapshot order, each
invocation seeing a single-selection list built from the corresponding
snapshot selection; it reports no error, and the real (non-draft) target
context — here the invoking context — is unchanged afterwards. -/
theorem context_wrap_itersel_draft_spec (clients : List (Str × Context))
    (context : Context) (f : Context → Context) :
    (context_wrap ⟨none, none, true, true⟩ clients context f).err = none ∧
    (context_wrap ⟨none, none, true, true⟩ clients context f).real = context ∧
    (context_wrap ⟨none, none, true, true⟩ clients context f).calls.length
      = context.selections.length ∧
    (context_wrap ⟨none, none, true, true⟩ clients context f).calls.map
        Context.selections
      = context.selections.map (fun s => [s]) := by
  have hbody : context_wrap ⟨none, none, true, true⟩ clients context f
      = context_wrap_body ⟨none, none, true, true⟩ context f := rfl
  rw [hbody]
  have hcalls : (context_wrap_body ⟨none, none, true, true⟩ context f).calls
      = (run_itersel f context.selections
          { selections := context.selections, name := context.name,
            isEditing := false, undoEnabled := !context.isEditing }).2 := rfl
  refine ⟨rfl, rfl, ?_, ?_⟩
  · have := run_itersel_calls f context.selections
      { selections := context.selections, name := context.name,
        isEditing := false, undoEnabled := !context.isEditing }
    have hlen := congrArg List.length this
    simp only [List.length_map] at hlen
    rw [hcalls]
    exact hlen
  · rw [hcalls]
    exact run_itersel_calls f context.selections _

/-- C6: invoking `context_wrap` with `-itersel` but without `-draft` throws the
recoverable invalid-combination error ("-itersel makes no sense without
-draft") before the command closure is ever invoked, whenever target-context
resolution itself does not fail (no `-client` flag naming an absent client). -/
theorem itersel_without_draft_fails (flags : WrapFlags)
    (clients : List (Str × Context)) (context : Context) (f : Context → Context)
    (hdraft : flags.draft = false) (hsel : flags.itersel = true)
    (hclient : ∀ cname, flags.client = some cname →
      (lookup_client clients cname).isSome = true) :
    (context_wrap flags clients context f).err
      = some (.runtimeError iterselMsg) ∧
    (context_wrap flags clients context f).calls = [] := by
  have hbody : ∀ rc : Context, context_wrap_body flags rc f
      = { err := some (.runtimeError iterselMsg), real := rc, calls := [] } := by
    intro rc
    rw [context_wrap_body, if_neg (by simp [hdraft]), if_pos (by simp [hsel])]
  rw [context_wrap]
  cases hcf : flags.client with
  | some cname =>
    have hs := hclient cname hcf
    cases hlk : lookup_client clients cname with
    | some rc => simp [hlk, hbody]
    | none => rw [hlk] at hs; exact nomatch hs
  | none =>
    cases htc : flags.tryClient with
    | some cname =>
      cases hlk : lookup_client clients cname with
      | some rc => simp [hlk, hbody]
      | none => simp [hlk, hbody]
    | none => simp [hbody]

/-- Witness for C6: no client flags, itersel set, draft unset, an identity
closure, and a context with no name and no selections. -/
theorem itersel_without_draft_fails_witness :
    (context_wrap ⟨none, none, false, true⟩ [] ⟨[], [], false, true⟩ id).err
      = some (.runtimeError iterselMsg) ∧
    (context_wrap ⟨none, none, false, true⟩ [] ⟨[], [], false, true⟩ id).calls
      = [] :=
  itersel_without_draft_fails ⟨none, none, false, true⟩ [] ⟨[], [], false, true⟩
    id rfl rfl (fun _ h => nomatch h)

/-! ### exec_keys and RegisterRestorer (commands.cc) -/

/-- RegisterManager state: the most recent write to a register name shadows
older ones; reads take the first entry with the name. -/
def getReg : List (Char × List Str) → Char → List Str
  | [], _ => []
  | (c, v) :: rest, n => if c == n then v else getReg rest n

/-- Writing a register. -/
def setReg (regs : List (Char × List Str)) (n : Char) (v : List Str) :
    List (Char × List Str) :=
  (n, v) :: regs

/-- The default yank register, named by the double-quote character. -/
def quoteReg : Char := Char.ofNat 34

/-- The search register. -/
def slashReg : Char := '/'

/-- The editor state visible to `exec_keys`: the register file. -/
structure EditorState where
  registers : List (Char × List Str)
deriving DecidableEq, Repr

/-- A key of a key sequence (modifiers plus codepoint). -/
structure Key where
  modifiers : Nat
  key : Char
deriving DecidableEq, Repr

/-- One `handle_key` step of the input handler: it may mutate the editor state
and may raise a recoverable error, whose side effects up to the raise persist. -/
abbrev KeyHandler := Key → EditorState → Option CmdError × EditorState

/-- The key loop of `exec_keys`: feed keys in order until one raises. -/
def run_keys (handler : KeyHandler) :
    List Key → EditorState → Option CmdError × EditorState
  | [], st => (none, st)
  | k :: ks, st =>
      match handler k st with
      | (none, st1) => run_keys handler ks st1
      | (some e, st1) => (some e, st1)

/-- `exec_keys` of commands.cc: two `RegisterRestorer`s capture the default
yank register and the search register on entry and write the saved values back
on scope exit — the slash restorer first, then the quote restorer — whether key
handling completed normally or raised.  (The `ScopedEdition` undo grouping has
no effect on registers and is not modelled.) -/
def exec_keys (handler : KeyHandler) (keys : List Key) (st : EditorState) :
    Option CmdError × EditorState :=
  let qsave := getReg st.registers quoteReg
  let ssave := getReg st.registers slashReg
  let res := run_keys handler keys st
  (res.1,
   { registers := setReg (setReg res.2.registers slashReg ssave) quoteReg qsave })

/-- C7: for every key handler, key sequence and starting state — whether key
handling completes normally or raises an error — the values of the default
yank register and of the search register after `exec_keys` equal their values
before the call. -/
theorem exec_keys_restores_registers (handler : KeyHandler) (keys : List Key)
    (st : EditorState) :
    getReg (exec_keys handler keys st).2.registers quoteReg
      = getReg st.registers quoteReg ∧
    getReg (exec_keys handler keys st).2.registers slashReg
      = getReg st.registers slashReg := by
  have hqq : (quoteReg == quoteReg) = true := by decide
  have hqs : (quoteReg == slashReg) = false := by decide
  have hss : (slashReg == slashReg) = true := by decide
  constructor
  · simp [exec_keys, setReg, getReg, hqq]
  · simp [exec_keys, setReg, getReg, hqs, hss]

/-! ### try / catch (commands.cc) -/

/-- The "catch" keyword of the try command. -/
def kwCatch : Str := ['c', 'a', 't', 'c', 'h']

/-- The usage message thrown by try_catch on a malformed catch clause. -/
def tryUsageMsg : Str := ("usage: try <commands> [catch <on error commands>]").toList

/-- A command executor (`CommandManager::execute`) is modelled as a state
transformer that may raise a recoverable error, returning the state as left by
its side effects in either case. -/
abbrev CommandExec (σ : Type) := Str → σ → Option CmdError × σ

/-- `try_catch` of commands.cc.  With one parameter it executes the command and
catches any `Kakoune::runtime_error` (every `CmdError` models one), running
nothing in its place; with three parameters the second must be "catch", and on
failure of the first command the fallback command is executed. -/
def try_catch {σ : Type} (params : List Str) (exec : CommandExec σ) (st : σ) :
    Option CmdError × σ :=
  match params with
  | [cmd] =>
      match exec cmd st with
      | (none, st1) => (none, st1)
      | (some _, st1) => (none, st1)
  | [cmd, kw, fallback] =>
      if kw ≠ kwCatch then (some (.runtimeError tryUsageMsg), st)
      else
        match exec cmd st with
        | (none, st1) => (none, st1)
        | (some _, st1) => exec fallback st1
  | _ => (some .wrongArgumentCount, st)

/-- An executor that always raises, counting its invocations in the state. -/
def failing_exec : CommandExec Nat :=
  fun _ n => (some (.runtimeError ['b', 'o', 'o', 'm']), n + 1)

/-- C8 counterexample: `try <failing command>` without a catch clause does not
let the failure propagate — the error is caught and silently discarded, and
try_catch reports success (the failing command ran exactly once). -/
theorem try_without_catch_counterexample :
    try_catch [['f', 'o', 'o']] failing_exec 0 = (none, 1) := rfl

/-- C8 amended: a recoverable failure raised while executing the command of a
try construct is always intercepted; when a catch clause is present the
fallback command is executed, and without a catch clause the failure is
silently discarded (try reports success) rather than propagating. -/
theorem try_catch_interception_amended {σ : Type} (exec : CommandExec σ)
    (st st1 : σ) (cmd fallback : Str) (e : CmdError)
    (h : exec cmd st = (some e, st1)) :
    try_catch [cmd] exec st = (none, st1) ∧
    try_catch [cmd, kwCatch, fallback] exec st = exec fallback st1 := by
  constructor
  · simp [try_catch, h]
  · simp [try_catch, h]

/-- Witness for C8's amended statement with the counting executor. -/
theorem try_catch_interception_amended_witness :
    try_catch [['f', 'o', 'o']] failing_exec 0 = (none, 1) ∧
    try_catch [['f', 'o', 'o'], kwCatch, ['b', 'a', 'r']] failing_exec 0
      = failing_exec ['b', 'a', 'r'] 1 :=
  try_catch_interception_amended failing_exec 0 1 ['f', 'o', 'o'] ['b', 'a', 'r']
    (.runtimeError ['b', 'o', 'o', 'm']) rfl

/-! ### Shell-backed completion (define_command, completion.hh) -/

/-- The completion-flags enum of completion.hh. -/
inductive CompletionFlags where
  | None
  | Fast
deriving DecidableEq, Repr

/-- Splitting shell output on newlines (`split(output, \x27\n\x27)`). -/
def splitNewline (s : Str) : List Str := s.splitOn '\n'

/-- The completer closure installed by `define_command` for the
`-shell-completion` option, over an oracle `shellEval` standing for
`ShellManager::instance().eval` applied to a context of type `κ`.  Returns the
candidate list together with the list of shell commands actually evaluated. -/
def shell_completion_completer {κ : Type} (shell_cmd : Str)
    (shellEval : κ → Str → List Str → List (Str × Str) → Str) (context : κ)
    (flags : CompletionFlags) (params : List Str)
    (token_to_complete : Nat) (pos_in_token : Nat) : List Str × List Str :=
  if flags == CompletionFlags.Fast then ([], [])
  else
    let vars := [(("token_to_complete").toList, (Nat.repr token_to_complete).toList),
                 (("pos_in_token").toList, (Nat.repr pos_in_token).toList)]
    let output := shellEval context shell_cmd params vars
    (splitNewline output, [shell_cmd])

/-- C9: every shell-backed completer, when invoked with the Fast completion
flag, returns an empty candidate list and evaluates no shell command, for every
context, shell oracle, argument list and cursor position. -/
theorem shell_completion_fast_empty {κ : Type} (shell_cmd : Str)
    (shellEval : κ → Str → List Str → List (Str × Str) → Str) (context : κ)
    (params : List Str) (token_to_complete : Nat) (pos_in_token : Nat) :
    shell_completion_completer shell_cmd shellEval context CompletionFlags.Fast
      params token_to_complete pos_in_token = ([], []) := rfl

/-! ### declare_option (commands.cc) -/

/-- The value types an option can be declared with. -/
inductive OptType where
  | tInt
  | tBool
  | tStr
  | tRegex
  | tIntList
  | tStrList
  | tLineFlagList
deriving DecidableEq, Repr

/-- A declared option: its type, its Hidden flag, and its value — `none` means
the type's default value (the one passed to `declare_option<T>`), `some s`
means `set_from_string(s)` was applied. -/
structure OptEntry where
  type : OptType
  hidden : Bool
  value : Option Str
deriving DecidableEq, Repr

/-- The GlobalOptions singleton: declared options in declaration order. -/
structure GlobalOpts where
  opts : List (Str × OptEntry)
deriving DecidableEq, Repr

/-- `GlobalOptions::declare_option<T>`.  Modelled from the spec: registration
in a scope instance fails with DuplicateName when the name already exists,
otherwise the entry is appended with the default value.  (option_manager is
not part of the sources.) -/
def GlobalOpts.declare (g : GlobalOpts) (t : OptType) (name : Str)
    (hidden : Bool) : Except CmdError GlobalOpts :=
  if g.opts.any (fun p => p.1 == name) then .error (.duplicateName name)
  else .ok ⟨g.opts ++ [(name, ⟨t, hidden, none⟩)]⟩

/-- `Option::set_from_string` on the named option. -/
def GlobalOpts.setFromString (g : GlobalOpts) (name : Str) (v : Str) : GlobalOpts :=
  ⟨g.opts.map (fun p => if p.1 == name then (p.1, { p.2 with value := some v }) else p)⟩

/-- The type names accepted by declare_option, with the option type each
declares.  The first list entry, "int", corresponds to the initial
non-chained `if`; the rest form the `else if` chain. -/
def declare_chain (p0 : Str) : Option OptType :=
  if p0 = ("bool").toList then some .tBool
  else if p0 = ("str").toList then some .tStr
  else if p0 = ("regex").toList then some .tRegex
  else if p0 = ("int-list").toList then some .tIntList
  else if p0 = ("str-list").toList then some .tStrList
  else if p0 = ("line-flag-list").toList then some .tLineFlagList
  else none

/-- `declare_option` of commands.cc, with 2 or 3 positional parameters and the
`-hidden` flag.  The `"int"` comparison is a separate `if` statement that is
not chained (by `else`) into the following `if/else if` dispatch, so after
declaring the int option control falls into that chain, whose final `else`
throws "unknown type int".  The mutation of the GlobalOptions singleton
performed before the throw persists, which the returned state reflects. -/
def declare_option (params : List Str) (hidden : Bool) (g : GlobalOpts) :
    Option CmdError × GlobalOpts :=
  if params.length < 2 ∨ 3 < params.length then (some .wrongArgumentCount, g)
  else
    let p0 := params.headD []
    let p1 := (params.drop 1).headD []
    let step1 : Except CmdError (GlobalOpts × Option Str) :=
      if p0 = ("int").toList then (g.declare .tInt p1 hidden).map (fun g1 => (g1, some p1))
      else .ok (g, none)
    match step1 with
    | .error e => (some e, g)
    | .ok (g1, opt1) =>
      let step2 : Except CmdError (GlobalOpts × Option Str) :=
        match declare_chain p0 with
        | some t => (g1.declare t p1 hidden).map (fun g2 => (g2, some p1))
        | none => .error (.runtimeError (("unknown type ").toList ++ p0))
      match step2 with
      | .error e => (some e, g1)
      | .ok (g2, opt2) =>
        let opt := match opt2 with | some n => some n | none => opt1
        if params.length = 3 then
          match opt with
          | some n => (none, g2.setFromString n ((params.drop 2).headD []))
          | none => (none, g2)
        else (none, g2)

/-- C10: declaring an option of type "int" always raises the "unknown type
int" error even though the int option has just been declared in the global
options registry with its default value; the declaration never completes
successfully and a supplied initial value is never applied, because the "int"
branch is not chained by else into the following type dispatch. -/
theorem declare_option_int_unknown_type (name init : Str) (hidden : Bool)
    (g : GlobalOpts) (h : g.opts.any (fun p => p.1 == name) = false) :
    declare_option [("int").toList, name, init] hidden g
      = (some (.runtimeError (("unknown type ").toList ++ ("int").toList)),
         ⟨g.opts ++ [(name, ⟨.tInt, hidden, none⟩)]⟩) := by
  rw [declare_option, if_neg (by simp)]
  simp only [List.headD, List.drop, List.length_cons, eq_self_iff_true, if_true]
  rw [GlobalOpts.declare, if_neg (by simp [h])]
  rw [show declare_chain ("int").toList = none from by decide]
  rfl

/-- Witness for C10: declaring `decl int foo 42` on empty global options. -/
theorem declare_option_int_unknown_type_witness :
    declare_option [("int").toList, ['f', 'o', 'o'], ['4', '2']] false ⟨[]⟩
      = (some (.runtimeError (("unknown type ").toList ++ ("int").toList)),
         ⟨[] ++ [(['f', 'o', 'o'], ⟨.tInt, false, none⟩)]⟩) :=
  declare_option_int_unknown_type ['f', 'o', 'o'] ['4', '2'] false ⟨[]⟩ (by decide)

end Kakoune
